import Mathlib

/-!
Verification of the Trading-Forge market-data ingestion layer.

Shallow embedding of:
  * `backend/app/core/websocket_manager.py` (class `WebSocketManager`):
    the three message processors `_process_binance`, `_process_bybit`,
    `_process_kraken`, the `subscribe` method, and the subscribe-target
    construction of the three `_*_handler` reconnect loops;
  * `core_feeds.py` (class `ForgeFeeds`): the Binance receive-loop body
    (price-map write followed by the callback fan-out) and the
    reconnect loop.

Modelling conventions:
  * Decoded JSON payloads are modelled by the inductive `JVal`; dict-shaped
    envelopes are association lists `List (String × JVal)`.
  * Python `float(...)` on the decimal strings carried by the feeds is
    modelled exactly over `ℚ` (`parseDecimal`).  At every input treated in
    the theorems below, IEEE-double evaluation agrees with the exact
    rational value (in particular `float("1700000000.123") * 1000` is the
    exact double `1700000000123.0`).
  * Redis `setex` and `publish` calls are recorded as an `Effect` trace;
    the redis backend itself is modelled as always accepting the call.
  * A Python exception propagating out of a processor is the `error` field
    of `PRes`: `some msg` means the call raised after having performed
    `effects`; `none` means it returned normally.
  * A non-string value in a field the code interpolates into a key or uses
    as the symbol (`data["s"]`, `data[3]`) is treated as malformed
    structure and reported as an error; the feeds only ever carry strings
    there.
-/

/-- An exact (unnormalized) rational `num / den`, the value of a decimal
string such as `"50000.1"`.  Kept unnormalized so that every operation the
code performs is kernel-computable; `Dec.toRat` is the view into `ℚ`. -/
structure Dec : Type where
  num : Int
  den : Nat
  deriving DecidableEq, Repr

/-- The rational number a `Dec` denotes. -/
def Dec.toRat (d : Dec) : ℚ :=
  (d.num : ℚ) / (d.den : ℚ)

/-- A decoded JSON value (result of `json.loads`). -/
inductive JVal : Type
  | jnull : JVal
  | jbool : Bool → JVal
  | jint : Int → JVal
  | jnum : Dec → JVal
  | jstr : String → JVal
  | jarr : List JVal → JVal
  | jobj : List (String × JVal) → JVal

/-- A normalized price tick, as the `price_data` dict built by each
processor: exchange, symbol, price, volume, raw timestamp (ms). -/
structure PriceTick : Type where
  exchange : String
  symbol : String
  price : Dec
  volume : Dec
  timestamp : Int
  deriving DecidableEq, Repr

/-- One externally visible redis call made by a processor. -/
inductive Effect : Type
  | setex : String → Nat → PriceTick → Effect
  | publish : String → PriceTick → Effect
  deriving DecidableEq, Repr

/-- Result of running one processor call: the redis effects it performed,
in order, and the exception it raised (if any) after performing them. -/
structure PRes : Type where
  effects : List Effect
  error : Option String
  deriving DecidableEq, Repr

/-- `10 ^ n`, by structural recursion (kernel-friendly). -/
def pow10 : Nat → Nat
  | 0 => 1
  | n + 1 => 10 * pow10 n

/-- Reads a run of ASCII digits, accumulating their value; fails on any
non-digit character. -/
def parseDigitsAux : List Char → Nat → Option Nat
  | [], acc => some acc
  | c :: cs, acc =>
      if c.isDigit then parseDigitsAux cs (acc * 10 + (c.toNat - 48)) else none

/-- Python `float(s)` on the non-negative decimal strings the exchanges
send ("50000.1", "0.5", "1700000000.123"), as an exact rational. -/
def parseDecimal (s : String) : Option Dec :=
  match s.data.splitOn '.' with
  | [ds] =>
      if ds.isEmpty then none
      else (parseDigitsAux ds 0).map (fun n => (⟨n, 1⟩ : Dec))
  | [is, fs] =>
      if is.isEmpty && fs.isEmpty then none
      else
        match parseDigitsAux is 0, parseDigitsAux fs 0 with
        | some n, some m =>
            some (⟨(n * pow10 fs.length + m : Int), pow10 fs.length⟩ : Dec)
        | _, _ => none
  | _ => none

/-- Python `s.startswith(p)`: `p` is a prefix of `s`. -/
def pyStartsWith (s p : String) : Bool :=
  p.data.isPrefixOf s.data

/-- Python `s.endswith(p)`: `p` is a suffix of `s`. -/
def pyEndsWith (s p : String) : Bool :=
  p.data.reverse.isPrefixOf s.data.reverse

/-- Python `float(x)` applied to a decoded JSON value. -/
def pyFloat : JVal → Except String Dec
  | JVal.jstr s =>
      match parseDecimal s with
      | some q => Except.ok q
      | none => Except.error "ValueError: could not convert string to float"
  | JVal.jnum q => Except.ok q
  | JVal.jint n => Except.ok ⟨n, 1⟩
  | JVal.jbool b => Except.ok ⟨if b then 1 else 0, 1⟩
  | _ => Except.error "TypeError: float() argument"

/-- Multiplication of an exact decimal by a natural number
(`float(trade[2]) * 1000`). -/
def Dec.mulNat (d : Dec) (k : Nat) : Dec :=
  ⟨d.num * k, d.den⟩

/-- Python `int(q)` on a (non-negative) rational: truncation toward zero. -/
def pyTrunc (q : Dec) : Int :=
  Int.tdiv q.num (q.den : Int)

/-- `_process_binance` (websocket_manager.py lines 145-166).
Guard: `if "e" not in data or data["e"] != "trade": return`; otherwise
build `price_data` from `s`, `p`, `q`, `T` and perform
`setex("price:binance:{s}", 60, ...)` then `publish("price_updates", ...)`. -/
def processBinance (data : List (String × JVal)) : PRes :=
  match data.lookup "e" with
  | some (JVal.jstr "trade") =>
      match data.lookup "s" with
      | some (JVal.jstr s) =>
          match data.lookup "p" with
          | some pv =>
              match pyFloat pv with
              | Except.ok p =>
                  match data.lookup "q" with
                  | some qv =>
                      match pyFloat qv with
                      | Except.ok q =>
                          match data.lookup "T" with
                          | some (JVal.jint t) =>
                              let tick : PriceTick :=
                                ⟨"binance", s, p, q, t⟩
                              ⟨[Effect.setex ("price:binance:" ++ s) 60 tick,
                                Effect.publish "price_updates" tick], none⟩
                          | some _ => ⟨[], some "malformed timestamp"⟩
                          | none => ⟨[], some "KeyError: T"⟩
                      | Except.error e => ⟨[], some e⟩
                  | none => ⟨[], some "KeyError: q"⟩
              | Except.error e => ⟨[], some e⟩
          | none => ⟨[], some "KeyError: p"⟩
      | some _ => ⟨[], some "malformed symbol"⟩
      | none => ⟨[], some "KeyError: s"⟩
  | _ => ⟨[], none⟩

/-- One Bybit trade record → tick (body of the `for trade in data.get("data", [])`
loop of `_process_bybit`): fields `s`, `p`, `v`, `T`, exchange `"bybit"`. -/
def bybitTrade (tr : JVal) : Except String PriceTick :=
  match tr with
  | JVal.jobj f =>
      match f.lookup "s" with
      | some (JVal.jstr s) =>
          match f.lookup "p" with
          | some pv =>
              match pyFloat pv with
              | Except.ok p =>
                  match f.lookup "v" with
                  | some vv =>
                      match pyFloat vv with
                      | Except.ok v =>
                          match f.lookup "T" with
                          | some (JVal.jint t) => Except.ok ⟨"bybit", s, p, v, t⟩
                          | some _ => Except.error "malformed timestamp"
                          | none => Except.error "KeyError: T"
                      | Except.error e => Except.error e
                  | none => Except.error "KeyError: v"
              | Except.error e => Except.error e
          | none => Except.error "KeyError: p"
      | some _ => Except.error "malformed symbol"
      | none => Except.error "KeyError: s"
  | _ => Except.error "TypeError: trade record is not a dict"

/-- The `for trade in ...` loop of `_process_bybit`: per record, convert,
`setex("price:bybit:{s}", 60, ...)`, `publish("price_updates", ...)`;
a raising record aborts the loop, keeping the effects already performed. -/
def processBybitTrades : List JVal → PRes
  | [] => ⟨[], none⟩
  | tr :: rest =>
      match bybitTrade tr with
      | Except.ok t =>
          let r := processBybitTrades rest
          ⟨Effect.setex ("price:bybit:" ++ t.symbol) 60 t ::
            Effect.publish "price_updates" t :: r.effects, r.error⟩
      | Except.error e => ⟨[], some e⟩

/-- `_process_bybit` (websocket_manager.py lines 168-185).
Guard: `data.get("topic", "").startswith("publicTrade")`; payload:
`data.get("data", [])` iterated record by record. -/
def processBybit (data : List (String × JVal)) : PRes :=
  match data.lookup "topic" with
  | some (JVal.jstr topic) =>
      if pyStartsWith topic "publicTrade" then
        match data.lookup "data" with
        | some (JVal.jarr trades) => processBybitTrades trades
        | none => ⟨[], none⟩
        | some _ => ⟨[], some "TypeError: payload is not iterable as records"⟩
      else ⟨[], none⟩
  | none => ⟨[], none⟩
  | some _ => ⟨[], some "AttributeError: startswith"⟩

/-- One Kraken trade entry `[price, volume, epochSeconds, ...]` → tick
(body of the `for trade in data[1]` loop of `_process_kraken`); `sym` is
`data[3]`; the timestamp is `int(float(trade[2]) * 1000)`. -/
def krakenTrade (sym : String) (tr : JVal) : Except String PriceTick :=
  match tr with
  | JVal.jarr fields =>
      match fields.get? 0 with
      | some pv =>
          match pyFloat pv with
          | Except.ok p =>
              match fields.get? 1 with
              | some vv =>
                  match pyFloat vv with
                  | Except.ok v =>
                      match fields.get? 2 with
                      | some tv =>
                          match pyFloat tv with
                          | Except.ok ts =>
                              Except.ok ⟨"kraken", sym, p, v, pyTrunc (ts.mulNat 1000)⟩
                          | Except.error e => Except.error e
                      | none => Except.error "IndexError: trade[2]"
                  | Except.error e => Except.error e
              | none => Except.error "IndexError: trade[1]"
          | Except.error e => Except.error e
      | none => Except.error "IndexError: trade[0]"
  | _ => Except.error "TypeError: trade entry is not indexable"

/-- The `for trade in data[1]` loop of `_process_kraken`: per entry,
convert, `setex("price:kraken:{data[3]}", 60, ...)`,
`publish("price_updates", ...)`. -/
def processKrakenTrades (sym : String) : List JVal → PRes
  | [] => ⟨[], none⟩
  | tr :: rest =>
      match krakenTrade sym tr with
      | Except.ok t =>
          let r := processKrakenTrades sym rest
          ⟨Effect.setex ("price:kraken:" ++ t.symbol) 60 t ::
            Effect.publish "price_updates" t :: r.effects, r.error⟩
      | Except.error e => ⟨[], some e⟩

/-- `_process_kraken` (websocket_manager.py lines 187-205).
Guard: `isinstance(data, list) and len(data) > 3` and `data[2] == "trade"`;
the symbol is read from index 3 (`data[3]`), the trade list from index 1. -/
def processKraken (data : JVal) : PRes :=
  match data with
  | JVal.jarr xs =>
      if xs.length > 3 then
        match xs.getD 2 JVal.jnull with
        | JVal.jstr ev =>
            if ev = "trade" then
              match xs.getD 3 JVal.jnull with
              | JVal.jstr sym =>
                  match xs.getD 1 JVal.jnull with
                  | JVal.jarr trades => processKrakenTrades sym trades
                  | _ => ⟨[], some "TypeError: data[1] is not iterable"⟩
              | _ => ⟨[], some "malformed symbol"⟩
            else ⟨[], none⟩
        | _ => ⟨[], none⟩
      else ⟨[], none⟩
  | _ => ⟨[], none⟩

/-- The ticks a processor run accepted, in order: one per cache write. -/
def emittedTicks (r : PRes) : List PriceTick :=
  r.effects.filterMap (fun e =>
    match e with
    | Effect.setex _ _ t => some t
    | Effect.publish _ _ => none)

/-- The Exchange-C sample frame of the spec:
`[0, [["50000.1", "0.5", "1700000000.123"]], "trade", "XBT/USD"]`. -/
def krakenSampleFrame : JVal :=
  JVal.jarr [JVal.jint 0,
    JVal.jarr [JVal.jarr [JVal.jstr "50000.1", JVal.jstr "0.5",
      JVal.jstr "1700000000.123"]],
    JVal.jstr "trade", JVal.jstr "XBT/USD"]

/-- The tick `_process_kraken` builds from the sample frame. -/
def krakenSampleTick : PriceTick :=
  ⟨"kraken", "XBT/USD", ⟨500001, 10⟩, ⟨5, 10⟩, 1700000000123⟩

/-! ## Subscription registry (`WebSocketManager.subscribe`) -/

/-- Python `set.add`: insert if absent (the list model of a `set` keeps
each element at most once when the invariant below holds). -/
def setAdd (l : List String) (x : String) : List String :=
  if x ∈ l then l else l ++ [x]

/-- In-place update of the value stored under key `k` of a dict
(`self.subscriptions[exchange].add(...)` mutates the set in the dict). -/
def dictUpdate (d : List (String × List String)) (k : String)
    (f : List String → List String) : List (String × List String) :=
  d.map (fun p => if p.1 = k then (p.1, f p.2) else p)

/-- The manager state relevant to `subscribe`: the `self.subscriptions`
dict.  Its keys are fixed at construction (`binance`, `bybit`, `kraken`)
and no code path adds or removes keys. -/
structure WSState : Type where
  subscriptions : List (String × List String)
  deriving DecidableEq, Repr

/-- `self.subscriptions` as initialized in `WebSocketManager.__init__`. -/
def initialWSState : WSState :=
  ⟨[("binance", []), ("bybit", []), ("kraken", [])]⟩

/-- `WebSocketManager.subscribe` (websocket_manager.py lines 66-73):
unknown exchanges log a warning and return; otherwise the upper-cased
symbol is added to that exchange's set. -/
def subscribe (st : WSState) (exchange symbol : String) : WSState :=
  if (st.subscriptions.lookup exchange).isSome then
    ⟨dictUpdate st.subscriptions exchange (fun l => setAdd l symbol.toUpper)⟩
  else st

/-- The subscription set recorded for an exchange (empty for unknown). -/
def subsOf (st : WSState) (exchange : String) : List String :=
  (st.subscriptions.lookup exchange).getD []

/-! ## Subscribe-target construction in the three handler loops -/

/-- `_binance_handler` (lines 79-84): stream names from the subscription
set, or the default symbols when the set is empty. -/
def binanceStreams (subs : List String) : List String :=
  let streams := subs.map (fun s => s.toLower ++ "@trade")
  if streams.isEmpty then ["btcusdt@trade", "ethusdt@trade"] else streams

/-- `_bybit_handler` (lines 106-109): `publicTrade.{s}` args, or the
fallback (`[...] or ["publicTrade.BTCUSDT"]`: an empty list is falsy). -/
def bybitArgs (subs : List String) : List String :=
  let args := subs.map (fun s => "publicTrade." ++ s)
  if args.isEmpty then ["publicTrade.BTCUSDT"] else args

/-- `_kraken_handler` (lines 129-133): the pair list, or the fallback
(`list(...) or ["XBT/USD", "ETH/USD"]`). -/
def krakenPairs (subs : List String) : List String :=
  if subs.isEmpty then ["XBT/USD", "ETH/USD"] else subs

/-! ## Connection-supervisor state machine

Each `_*_handler` in websocket_manager.py and each handler in
core_feeds.py is the loop

    while running:
        try:
            connect; (send subscribe;)
            while running: recv; process
        except Exception:
            sleep(delay)

modelled as a state machine: `connecting` is the loop body up to a
successful `connect`, `connected` is the inner receive-loop, `backoff`
is the `except` branch (sleep then re-enter the outer loop), and
`disconnected` is the loop having observed `running == False` (or, in
core_feeds' `while True`, cancellation). -/

inductive ConnState : Type
  | disconnected : ConnState
  | connecting : ConnState
  | connected : ConnState
  | backoff : ConnState
  deriving DecidableEq, Repr

/-- An observable event of one supervisor loop iteration: connection
attempt outcome, one receive-loop iteration outcome (`recvErr` covers
transport failure, `json.loads` failure and an exception escaping the
processor), or shutdown (`running` flipping to `False` / cancellation). -/
inductive SupEvent : Type
  | connectOk : SupEvent
  | connectErr : SupEvent
  | recvOk : SupEvent
  | recvErr : SupEvent
  | stop : SupEvent
  deriving DecidableEq, Repr

/-- One transition of the supervisor loop. -/
def supStep : ConnState → SupEvent → ConnState
  | _, SupEvent.stop => ConnState.disconnected
  | ConnState.connecting, SupEvent.connectOk => ConnState.connected
  | ConnState.connecting, SupEvent.connectErr => ConnState.backoff
  | ConnState.connecting, _ => ConnState.connecting
  | ConnState.connected, SupEvent.recvOk => ConnState.connected
  | ConnState.connected, SupEvent.recvErr => ConnState.backoff
  | ConnState.connected, SupEvent.connectErr => ConnState.backoff
  | ConnState.connected, SupEvent.connectOk => ConnState.connected
  | ConnState.backoff, _ => ConnState.connecting
  | ConnState.disconnected, _ => ConnState.disconnected

/-- The supervisor run over a sequence of events. -/
def supRun (s : ConnState) : List SupEvent → ConnState
  | [] => s
  | e :: evs => supRun (supStep s e) evs

/-- Seconds slept before the next transition out of a state:
`await asyncio.sleep(delay)` runs exactly in the `except` branch. -/
def supWait (delay : Nat) (s : ConnState) : Nat :=
  if s = ConnState.backoff then delay else 0

/-- Reconnect delay of every `_*_handler` in websocket_manager.py. -/
def managerReconnectDelay : Nat := 5

/-- Reconnect delay of both handlers in core_feeds.py. -/
def feedsReconnectDelay : Nat := 3

/-! ## core_feeds.py (`ForgeFeeds`): price map and callback fan-out -/

/-- A subscriber sink (an entry of `self.callbacks`): called with
`(symbol, price, exchange)`; `some msg` models the coroutine raising. -/
def Sink : Type :=
  String → Dec → String → Option String

/-- `self.price` of `ForgeFeeds` (a `defaultdict(float)`), modelled as an
association list: `lookup` returning `none` stands for the default `0.0`. -/
structure FeedState : Type where
  price : List (String × Dec)
  deriving DecidableEq, Repr

/-- Python dict assignment `d[k] = v`. -/
def dictSet (d : List (String × Dec)) (k : String) (v : Dec) :
    List (String × Dec) :=
  if (d.lookup k).isSome then d.map (fun p => if p.1 = k then (k, v) else p)
  else d ++ [(k, v)]

/-- The `for cb in self.callbacks: await cb(symbol, price, "binance")`
loop, indices numbered from `i`: each sink is awaited in registration
order; the first sink that raises aborts the loop and the exception
propagates.  Returns the indices of the sinks that were invoked and the
propagating exception, if any. -/
def fanOutAux (sym : String) (pr : Dec) (exch : String) (i : Nat) :
    List Sink → List Nat × Option String
  | [] => ([], none)
  | cb :: rest =>
      match cb sym pr exch with
      | none =>
          let r := fanOutAux sym pr exch (i + 1) rest
          (i :: r.1, r.2)
      | some e => ([i], some e)

/-- Fan-out to all registered callbacks, from index 0. -/
def fanOut (cbs : List Sink) (sym : String) (pr : Dec) (exch : String) :
    List Nat × Option String :=
  fanOutAux sym pr exch 0 cbs

/-- One receive-loop iteration of `ForgeFeeds.binance_handler`
(core_feeds.py lines 30-38) on a decoded message: if the `stream` field
ends in `@miniTicker`, read `data["data"]["s"]` and
`float(data["data"]["c"])`, write `self.price[symbol]`, then fan out to
the callbacks.  Returns the state after the iteration, the indices of the
sinks invoked, and the exception propagating to the handler's `except`
(if any). -/
def feedBinanceStep (st : FeedState) (cbs : List Sink)
    (data : List (String × JVal)) : FeedState × List Nat × Option String :=
  match data.lookup "stream" with
  | some (JVal.jstr sn) =>
      if pyEndsWith sn "@miniTicker" then
        match data.lookup "data" with
        | some (JVal.jobj tick) =>
            match tick.lookup "s" with
            | some (JVal.jstr sym) =>
                match tick.lookup "c" with
                | some cv =>
                    match pyFloat cv with
                    | Except.ok pr =>
                        let st2 : FeedState := ⟨dictSet st.price sym pr⟩
                        let r := fanOut cbs sym pr "binance"
                        (st2, r.1, r.2)
                    | Except.error e => (st, [], some e)
                | none => (st, [], some "KeyError: c")
            | some _ => (st, [], some "malformed symbol")
            | none => (st, [], some "KeyError: s")
        | some _ => (st, [], some "TypeError: tick is not a dict")
        | none => (st, [], some "KeyError: data")
      else (st, [], none)
  | some _ => (st, [], some "AttributeError: endswith")
  | none => (st, [], none)

/-! ## Theorems -/

/-- C2: on the Exchange-C input
`[0, [["50000.1", "0.5", "1700000000.123"]], "trade", "XBT/USD"]`,
`_process_kraken` produces exactly one tick with price `50000.1`
(= 500001/10), volume `0.5` (= 1/2), timestamp `1700000000123` ms
(the epoch-seconds string times 1000, truncated to an integer) and
symbol `"XBT/USD"`, and raises no error. -/
theorem kraken_sample_one_exact_tick :
    emittedTicks (processKraken krakenSampleFrame) = [krakenSampleTick] ∧
    (processKraken krakenSampleFrame).error = none ∧
    krakenSampleTick.price.toRat = 500001 / 10 ∧
    krakenSampleTick.volume.toRat = 1 / 2 ∧
    krakenSampleTick.timestamp = 1700000000123 ∧
    krakenSampleTick.symbol = "XBT/USD" ∧
    krakenSampleTick.exchange = "kraken" :=
  ⟨by decide, by decide,
   by norm_num [krakenSampleTick, Dec.toRat],
   by norm_num [krakenSampleTick, Dec.toRat],
   by decide, by decide, by decide⟩

/-- C9: for each exchange handler, the subscribe target built in the
Connecting phase is never empty: the documented fallback list is used
when the subscription set is empty, and the set's symbols otherwise. -/
theorem subscribe_targets_never_empty (subs : List String) :
    (binanceStreams subs ≠ [] ∧
      binanceStreams subs =
        (if subs.isEmpty then ["btcusdt@trade", "ethusdt@trade"]
         else subs.map (fun s => s.toLower ++ "@trade"))) ∧
    (bybitArgs subs ≠ [] ∧
      bybitArgs subs =
        (if subs.isEmpty then ["publicTrade.BTCUSDT"]
         else subs.map (fun s => "publicTrade." ++ s))) ∧
    (krakenPairs subs ≠ [] ∧
      krakenPairs subs =
        (if subs.isEmpty then ["XBT/USD", "ETH/USD"] else subs)) := by
  refine ⟨⟨?_, ?_⟩, ⟨?_, ?_⟩, ⟨?_, ?_⟩⟩ <;>
    cases subs <;> simp [binanceStreams, bybitArgs, krakenPairs]

/-- C10: `subscribe` on an exchange name that is not a key of
`self.subscriptions` logs a warning and returns, raising no error and
leaving the whole manager state unchanged. -/
theorem subscribe_unknown_exchange_noop (st : WSState) (e s : String)
    (h : st.subscriptions.lookup e = none) :
    subscribe st e s = st := by
  simp [subscribe, h]

/-- Witness for C10: "coinbase" is not a known exchange of the initial
state, and subscribing to it changes nothing. -/
theorem subscribe_unknown_exchange_noop_witness :
    subscribe initialWSState "coinbase" "BTCUSDT" = initialWSState :=
  subscribe_unknown_exchange_noop initialWSState "coinbase" "BTCUSDT" (by decide)

/-- Every state the supervisor loop can step into while it has not
observed shutdown is live (not `disconnected`). -/
theorem supStep_not_disconnected (s : ConnState) (e : SupEvent)
    (hs : s ≠ ConnState.disconnected) (he : e ≠ SupEvent.stop) :
    supStep s e ≠ ConnState.disconnected := by
  cases s <;> cases e <;> simp_all [supStep]

/-- C7: an error inside the connected receive-loop transitions the
supervisor to `backoff`; in `backoff` the loop sleeps exactly the fixed
reconnect delay (5 s in websocket_manager.py, 3 s in core_feeds.py) and
then re-attempts connection; and over any event sequence that does not
contain shutdown the loop never reaches `disconnected` (unbounded
retry). -/
theorem supervisor_backoff_and_unbounded_retry (d : Nat) :
    supStep ConnState.connected SupEvent.recvErr = ConnState.backoff ∧
    supStep ConnState.connecting SupEvent.connectErr = ConnState.backoff ∧
    supWait d ConnState.backoff = d ∧
    supWait managerReconnectDelay ConnState.backoff = 5 ∧
    supWait feedsReconnectDelay ConnState.backoff = 3 ∧
    (∀ e, e ≠ SupEvent.stop → supStep ConnState.backoff e = ConnState.connecting) ∧
    (∀ s evs, s ≠ ConnState.disconnected → SupEvent.stop ∉ evs →
      supRun s evs ≠ ConnState.disconnected) := by
  refine ⟨rfl, rfl, rfl, rfl, rfl, ?_, ?_⟩
  · intro e he
    cases e <;> simp_all [supStep]
  · intro s evs
    induction evs generalizing s with
    | nil => intro hs _; exact hs
    | cons e evs ih =>
        intro hs hmem
        have he : e ≠ SupEvent.stop := fun hc => hmem (hc ▸ List.mem_cons_self e evs)
        have hmem2 : SupEvent.stop ∉ evs := fun hc => hmem (List.mem_cons_of_mem e hc)
        exact ih (supStep s e) (supStep_not_disconnected s e hs he) hmem2

/-- `setAdd` always makes its argument a member. -/
theorem setAdd_mem (l : List String) (x : String) : x ∈ setAdd l x := by
  by_cases h : x ∈ l <;> simp [setAdd, h]

/-- `setAdd` keeps a duplicate-free list duplicate-free. -/
theorem setAdd_nodup (l : List String) (x : String) (h : l.Nodup) :
    (setAdd l x).Nodup := by
  by_cases hx : x ∈ l <;> simp [setAdd, hx, h, List.nodup_append]

/-- Adding an element already present is the identity (Python `set.add`). -/
theorem setAdd_of_mem (l : List String) (x : String) (h : x ∈ l) :
    setAdd l x = l := by
  simp [setAdd, h]

/-- Looking up the updated key returns the transformed value. -/
theorem lookup_dictUpdate (d : List (String × List String)) (k : String)
    (f : List String → List String) :
    (dictUpdate d k f).lookup k = (d.lookup k).map f := by
  induction d with
  | nil => simp [dictUpdate]
  | cons p rest ih =>
      obtain ⟨k0, v0⟩ := p
      by_cases h : k0 = k
      · subst h
        show List.lookup k0
            ((if k0 = k0 then (k0, f v0) else (k0, v0)) :: dictUpdate rest k0 f) = _
        rw [if_pos rfl]
        simp [List.lookup]
      · show List.lookup k
            ((if k0 = k then (k0, f v0) else (k0, v0)) :: dictUpdate rest k f) = _
        rw [if_neg h]
        have hne : (k == k0) = false := beq_eq_false_iff_ne.mpr (Ne.symm h)
        simp [List.lookup, hne, ih]

/-- `dictUpdate` preserves a per-value invariant when `f` does. -/
theorem dictUpdate_values (d : List (String × List String)) (k : String)
    (f : List String → List String)
    (hd : ∀ a l, (a, l) ∈ d → l.Nodup)
    (hf : ∀ l, l.Nodup → (f l).Nodup) :
    ∀ a l, (a, l) ∈ dictUpdate d k f → l.Nodup := by
  intro a l hm
  obtain ⟨⟨a0, l0⟩, hm0, heq⟩ := List.mem_map.mp hm
  by_cases h : a0 = k
  · simp only [h, if_pos rfl] at heq
    cases heq
    exact hf l0 (hd a0 l0 (by simpa [h] using hm0))
  · simp only [if_neg h] at heq
    cases heq
    exact hd a l (by simpa using hm0)

/-- A successful lookup exhibits an entry of the dict. -/
theorem mem_of_lookup_some (d : List (String × List String)) (k : String)
    (v : List String) (h : d.lookup k = some v) : (k, v) ∈ d := by
  induction d with
  | nil => simp [List.lookup] at h
  | cons p rest ih =>
      obtain ⟨k0, v0⟩ := p
      by_cases he : k = k0
      · subst he
        simp [List.lookup] at h
        subst h
        exact List.mem_cons_self _ _
      · have hne : (k == k0) = false := beq_eq_false_iff_ne.mpr he
        simp only [List.lookup, hne] at h
        exact List.mem_cons_of_mem _ (ih h)

/-- `subscribe` on a known exchange updates that exchange's set in place. -/
theorem subscribe_known (st : WSState) (e s : String)
    (hk : (st.subscriptions.lookup e).isSome = true) :
    subscribe st e s =
      ⟨dictUpdate st.subscriptions e (fun l => setAdd l s.toUpper)⟩ := by
  unfold subscribe
  rw [if_pos hk]

/-- C6: for every known exchange, subscribing to the same symbol twice
leaves the subscription set containing the upper-cased symbol exactly
once, and every exchange's set remains duplicate-free. -/
theorem subscribe_twice_exactly_once (st : WSState) (e s : String)
    (hk : (st.subscriptions.lookup e).isSome = true)
    (hnd : ∀ a l, (a, l) ∈ st.subscriptions → l.Nodup) :
    (subsOf (subscribe (subscribe st e s) e s) e).count s.toUpper = 1 ∧
    (∀ a l, (a, l) ∈ (subscribe (subscribe st e s) e s).subscriptions →
      l.Nodup) := by
  obtain ⟨l0, hl0⟩ := Option.isSome_iff_exists.mp hk
  have h1 : subscribe st e s =
      ⟨dictUpdate st.subscriptions e (fun l => setAdd l s.toUpper)⟩ :=
    subscribe_known st e s hk
  have hlook1 : (subscribe st e s).subscriptions.lookup e =
      some (setAdd l0 s.toUpper) := by
    rw [h1]
    simp [lookup_dictUpdate, hl0]
  have hk1 : ((subscribe st e s).subscriptions.lookup e).isSome = true := by
    rw [hlook1]
    rfl
  have h2 : subscribe (subscribe st e s) e s =
      ⟨dictUpdate (subscribe st e s).subscriptions e
        (fun l => setAdd l s.toUpper)⟩ :=
    subscribe_known (subscribe st e s) e s hk1
  have hlook2 : (subscribe (subscribe st e s) e s).subscriptions.lookup e =
      some (setAdd (setAdd l0 s.toUpper) s.toUpper) := by
    rw [h2]
    simp [lookup_dictUpdate, hlook1]
  have hidem : setAdd (setAdd l0 s.toUpper) s.toUpper = setAdd l0 s.toUpper :=
    setAdd_of_mem _ _ (setAdd_mem l0 s.toUpper)
  have hl0mem : (e, l0) ∈ st.subscriptions :=
    mem_of_lookup_some st.subscriptions e l0 hl0
  have hnodup1 : (setAdd l0 s.toUpper).Nodup :=
    setAdd_nodup l0 s.toUpper (hnd e l0 hl0mem)
  constructor
  · rw [subsOf, hlook2, hidem]
    exact List.count_eq_one_of_mem hnodup1 (setAdd_mem l0 s.toUpper)
  · rw [h2]
    intro a l hm
    refine dictUpdate_values _ _ _ ?_ (fun l hl => setAdd_nodup l _ hl) a l hm
    rw [h1]
    exact dictUpdate_values _ _ _ hnd (fun l hl => setAdd_nodup l _ hl)

/-- An effect trace in which every accepted tick contributes exactly one
cache write — key `price:{exchange}:{symbol}`, TTL 60 — immediately
followed by exactly one publish on the shared channel `price_updates`,
and nothing else. -/
inductive WellPaired : List Effect → Prop
  | nil : WellPaired []
  | cons (t : PriceTick) (rest : List Effect) (h : WellPaired rest) :
      WellPaired
        (Effect.setex ("price:" ++ t.exchange ++ ":" ++ t.symbol) 60 t ::
          Effect.publish "price_updates" t :: rest)

/-- Every tick produced by `bybitTrade` carries exchange `"bybit"`. -/
theorem bybitTrade_exchange (tr : JVal) (t : PriceTick)
    (h : bybitTrade tr = Except.ok t) : t.exchange = "bybit" := by
  unfold bybitTrade at h
  repeat' split at h
  all_goals simp only [Except.ok.injEq, reduceCtorEq] at h
  all_goals subst h
  all_goals simp

/-- Every tick produced by `krakenTrade sym` carries exchange `"kraken"`
and symbol `sym`. -/
theorem krakenTrade_fields (sym : String) (tr : JVal) (t : PriceTick)
    (h : krakenTrade sym tr = Except.ok t) :
    t.exchange = "kraken" ∧ t.symbol = sym := by
  unfold krakenTrade at h
  repeat' split at h
  all_goals simp only [Except.ok.injEq, reduceCtorEq] at h
  all_goals subst h
  all_goals simp

/-- The pair of effects `_process_binance` performs for its tick is
well-paired. -/
theorem wellPaired_binance_single (t : PriceTick)
    (hx : t.exchange = "binance") :
    WellPaired [Effect.setex ("price:binance:" ++ t.symbol) 60 t,
      Effect.publish "price_updates" t] := by
  have h2 := WellPaired.cons t [] WellPaired.nil
  rw [hx] at h2
  have hkey : ("price:" ++ "binance" ++ ":" : String) = "price:binance:" := by
    decide
  rw [hkey] at h2
  exact h2

/-- The Bybit per-record loop emits well-paired effects. -/
theorem processBybitTrades_wellPaired (trades : List JVal) :
    WellPaired (processBybitTrades trades).effects := by
  induction trades with
  | nil => exact WellPaired.nil
  | cons tr rest ih =>
      cases htr : bybitTrade tr with
      | ok t =>
          have hx : t.exchange = "bybit" := bybitTrade_exchange tr t htr
          have h2 := WellPaired.cons t (processBybitTrades rest).effects ih
          rw [hx] at h2
          simpa [processBybitTrades, htr] using h2
      | error e =>
          simp only [processBybitTrades, htr]
          exact WellPaired.nil

/-- The Kraken per-entry loop emits well-paired effects. -/
theorem processKrakenTrades_wellPaired (sym : String) (trades : List JVal) :
    WellPaired (processKrakenTrades sym trades).effects := by
  induction trades with
  | nil => exact WellPaired.nil
  | cons tr rest ih =>
      cases htr : krakenTrade sym tr with
      | ok t =>
          have hx : t.exchange = "kraken" := (krakenTrade_fields sym tr t htr).1
          have h2 := WellPaired.cons t (processKrakenTrades sym rest).effects ih
          rw [hx] at h2
          simpa [processKrakenTrades, htr] using h2
      | error e =>
          simp only [processKrakenTrades, htr]
          exact WellPaired.nil

/-- C3: every processor call produces an effect trace in which each
accepted tick is cached exactly once under `price:{exchange}:{symbol}`
with TTL 60 and published exactly once on `price_updates`. -/
theorem accepted_tick_one_write_one_publish :
    (∀ env, WellPaired (processBinance env).effects) ∧
    (∀ env, WellPaired (processBybit env).effects) ∧
    (∀ dat, WellPaired (processKraken dat).effects) := by
  refine ⟨?_, ?_, ?_⟩
  · intro env
    unfold processBinance
    repeat' split
    all_goals try exact WellPaired.nil
    all_goals exact wellPaired_binance_single ⟨"binance", _, _, _, _⟩ rfl
  · intro env
    unfold processBybit
    repeat' split
    all_goals first
      | exact WellPaired.nil
      | exact processBybitTrades_wellPaired _
  · intro dat
    unfold processKraken
    repeat' split
    all_goals first
      | exact WellPaired.nil
      | exact processKrakenTrades_wellPaired _ _

/-- Witness for C3: the effect trace of the sample Kraken frame is
well-paired. -/
theorem accepted_tick_one_write_one_publish_witness :
    WellPaired (processKraken krakenSampleFrame).effects :=
  accepted_tick_one_write_one_publish.2.2 krakenSampleFrame

/-- Witness for C9: with an empty subscription set every target list is
the documented fallback; with `["SOLUSDT"]` it is built from the set. -/
theorem subscribe_targets_never_empty_witness :
    binanceStreams [] = ["btcusdt@trade", "ethusdt@trade"] ∧
    bybitArgs ["SOLUSDT"] = ["publicTrade.SOLUSDT"] ∧
    krakenPairs [] = ["XBT/USD", "ETH/USD"] :=
  ⟨by rw [(subscribe_targets_never_empty []).1.2]; rfl,
   by rw [(subscribe_targets_never_empty ["SOLUSDT"]).2.1.2]; rfl,
   by rw [(subscribe_targets_never_empty []).2.2.2]; rfl⟩

/-- When every Bybit record converts, the per-record loop emits exactly
the converted ticks, in order, and raises nothing. -/
theorem processBybitTrades_ticks (trades : List JVal) (pts : List PriceTick)
    (h : List.Forall₂ (fun tr pt => bybitTrade tr = Except.ok pt) trades pts) :
    emittedTicks (processBybitTrades trades) = pts ∧
    (processBybitTrades trades).error = none := by
  induction h with
  | nil => exact ⟨rfl, rfl⟩
  | cons htr hrest ih =>
      rename_i tr pt trs pts2
      constructor
      · simp only [processBybitTrades, htr, emittedTicks, List.filterMap_cons]
        simpa [emittedTicks] using ih.1
      · simp only [processBybitTrades, htr]
        exact ih.2

/-- Every tick of a fully converting Bybit batch carries exchange
`"bybit"`. -/
theorem forall₂_bybit_exchange (trades : List JVal) (pts : List PriceTick)
    (h : List.Forall₂ (fun tr pt => bybitTrade tr = Except.ok pt) trades pts) :
    ∀ pt ∈ pts, pt.exchange = "bybit" := by
  induction h with
  | nil => simp
  | cons htr hrest ih =>
      rename_i tr pt trs pts2
      intro x hx
      rcases List.mem_cons.mp hx with hh | hm
      · exact hh ▸ bybitTrade_exchange tr pt htr
      · exact ih x hm

/-- C1: a well-formed Bybit envelope with topic `publicTrade.BTCUSDT`
whose payload records all convert (each with symbol field `BTCUSDT`)
yields one tick per record — so exactly two ticks for two records — each
with exchange `"bybit"` and symbol `"BTCUSDT"`. -/
theorem bybit_one_tick_per_record (env : List (String × JVal))
    (trades : List JVal) (pts : List PriceTick)
    (htopic : env.lookup "topic" = some (JVal.jstr "publicTrade.BTCUSDT"))
    (hdata : env.lookup "data" = some (JVal.jarr trades))
    (hconv : List.Forall₂ (fun tr pt => bybitTrade tr = Except.ok pt) trades pts)
    (hsym : ∀ pt ∈ pts, pt.symbol = "BTCUSDT") :
    emittedTicks (processBybit env) = pts ∧
    (emittedTicks (processBybit env)).length = trades.length ∧
    (trades.length = 2 → (emittedTicks (processBybit env)).length = 2) ∧
    (∀ t ∈ emittedTicks (processBybit env),
      t.exchange = "bybit" ∧ t.symbol = "BTCUSDT") ∧
    (processBybit env).error = none := by
  have hstart : pyStartsWith "publicTrade.BTCUSDT" "publicTrade" = true := by
    decide
  have hpb : processBybit env = processBybitTrades trades := by
    simp [processBybit, htopic, hdata, hstart]
  have hrun := processBybitTrades_ticks trades pts hconv
  have hlen : pts.length = trades.length := (List.Forall₂.length_eq hconv).symm
  refine ⟨?_, ?_, ?_, ?_, ?_⟩
  · rw [hpb]; exact hrun.1
  · rw [hpb, hrun.1]; exact hlen
  · intro h2; rw [hpb, hrun.1, hlen]; exact h2
  · intro t ht
    rw [hpb, hrun.1] at ht
    exact ⟨forall₂_bybit_exchange trades pts hconv t ht, hsym t ht⟩
  · rw [hpb]; exact hrun.2

/-- A well-formed two-record Bybit envelope, as received on the
`publicTrade.BTCUSDT` topic. -/
def bybitSampleEnv : List (String × JVal) :=
  [("topic", JVal.jstr "publicTrade.BTCUSDT"),
   ("type", JVal.jstr "snapshot"),
   ("data", JVal.jarr
     [JVal.jobj [("T", JVal.jint 1700000000100), ("s", JVal.jstr "BTCUSDT"),
       ("p", JVal.jstr "50001.5"), ("v", JVal.jstr "0.01")],
      JVal.jobj [("T", JVal.jint 1700000000200), ("s", JVal.jstr "BTCUSDT"),
       ("p", JVal.jstr "50002.5"), ("v", JVal.jstr "0.02")]])]

/-- The two ticks `_process_bybit` builds from `bybitSampleEnv`. -/
def bybitSampleTick1 : PriceTick :=
  ⟨"bybit", "BTCUSDT", ⟨500015, 10⟩, ⟨1, 100⟩, 1700000000100⟩

/-- Second tick of the sample batch. -/
def bybitSampleTick2 : PriceTick :=
  ⟨"bybit", "BTCUSDT", ⟨500025, 10⟩, ⟨2, 100⟩, 1700000000200⟩

/-- Witness for C1: the sample two-record envelope yields exactly the two
expected ticks. -/
theorem bybit_one_tick_per_record_witness :
    emittedTicks (processBybit bybitSampleEnv) =
      [bybitSampleTick1, bybitSampleTick2] ∧
    (emittedTicks (processBybit bybitSampleEnv)).length = 2 := by
  have h := bybit_one_tick_per_record bybitSampleEnv
    [JVal.jobj [("T", JVal.jint 1700000000100), ("s", JVal.jstr "BTCUSDT"),
      ("p", JVal.jstr "50001.5"), ("v", JVal.jstr "0.01")],
     JVal.jobj [("T", JVal.jint 1700000000200), ("s", JVal.jstr "BTCUSDT"),
      ("p", JVal.jstr "50002.5"), ("v", JVal.jstr "0.02")]]
    [bybitSampleTick1, bybitSampleTick2]
    rfl rfl
    (List.Forall₂.cons rfl (List.Forall₂.cons rfl List.Forall₂.nil))
    (by
      intro pt hpt
      rcases List.mem_cons.mp hpt with hh | hm
      · rw [hh]; rfl
      · rcases List.mem_cons.mp hm with hh2 | hm2
        · rw [hh2]; rfl
        · cases hm2)
  exact ⟨h.1, h.2.2.1 rfl⟩

/-- C5: an irrelevant-but-well-formed Binance message produces zero
ticks, zero cache writes, zero publishes, and no exception — in both
implementations: `_process_binance` discards any envelope whose `e`
field is absent or not `"trade"`, and `ForgeFeeds.binance_handler`
discards any envelope whose `stream` field is absent or does not end in
`@miniTicker`, leaving the price map untouched and invoking no sink. -/
theorem binance_irrelevant_discarded :
    (∀ env, (∀ v, env.lookup "e" = some v → v ≠ JVal.jstr "trade") →
      processBinance env = ⟨[], none⟩) ∧
    (∀ st cbs env,
      (env.lookup "stream" = none ∨
        ∃ sn, env.lookup "stream" = some (JVal.jstr sn) ∧
          pyEndsWith sn "@miniTicker" = false) →
      feedBinanceStep st cbs env = (st, [], none)) := by
  constructor
  · intro env h
    unfold processBinance
    split
    · rename_i heq
      exact absurd rfl (h _ heq)
    · rfl
  · intro st cbs env h
    rcases h with hnone | ⟨sn, hsn, hend⟩
    · simp [feedBinanceStep, hnone]
    · simp [feedBinanceStep, hsn, hend]

/-- Witness for C5: a Bybit-style ack on the Binance processor and a
subscription-confirmation on the feeds handler are both discarded. -/
theorem binance_irrelevant_discarded_witness :
    processBinance [("e", JVal.jstr "24hrTicker"), ("s", JVal.jstr "BTCUSDT")] =
      ⟨[], none⟩ ∧
    feedBinanceStep ⟨[]⟩ [] [("result", JVal.jnull), ("id", JVal.jint 1)] =
      (⟨[]⟩, [], none) :=
  ⟨binance_irrelevant_discarded.1 _
    (by
      intro v hv
      rw [show List.lookup "e"
          [("e", JVal.jstr "24hrTicker"), ("s", JVal.jstr "BTCUSDT")] =
          some (JVal.jstr "24hrTicker") from rfl] at hv
      cases hv
      intro hc
      injection hc with hc2
      exact absurd hc2 (by decide)),
   binance_irrelevant_discarded.2 ⟨[]⟩ [] _ (Or.inl rfl)⟩

/-- The last element of a decoded JSON array (`data[-1]`). -/
def jarrLast : JVal → Option JVal
  | JVal.jarr xs => xs.getLast?
  | _ => none

/-- Every tick of the Kraken per-entry loop carries the symbol the loop
was given. -/
theorem processKrakenTrades_symbol (sym : String) (trades : List JVal) :
    ∀ t ∈ emittedTicks (processKrakenTrades sym trades), t.symbol = sym := by
  induction trades with
  | nil => simp [processKrakenTrades, emittedTicks]
  | cons tr rest ih =>
      intro t ht
      cases htr : krakenTrade sym tr with
      | ok t0 =>
          simp only [processKrakenTrades, htr, emittedTicks,
            List.filterMap_cons] at ht
          rcases List.mem_cons.mp ht with hh | hm
          · exact hh ▸ (krakenTrade_fields sym tr t0 htr).2
          · exact ih t (by simpa [emittedTicks] using hm)
      | error e =>
          simp [processKrakenTrades, htr, emittedTicks] at ht

/-- A Kraken trade frame of length 5: the pair name the code uses sits at
index 3, while the spec's "last index" holds a different pair. -/
def krakenFiveFrame : JVal :=
  JVal.jarr [JVal.jint 42,
    JVal.jarr [JVal.jarr [JVal.jstr "101.5", JVal.jstr "2.0",
      JVal.jstr "1700000001.5"]],
    JVal.jstr "trade", JVal.jstr "AAA/BBB", JVal.jstr "CCC/DDD"]

/-- Counterexample to C8 as stated: on a 5-element trade frame the
produced tick takes its symbol from index 3 (`"AAA/BBB"`), not from the
last index of the array (which holds `"CCC/DDD"`). -/
theorem kraken_symbol_not_from_last_index :
    (emittedTicks (processKraken krakenFiveFrame)).map PriceTick.symbol =
      ["AAA/BBB"] ∧
    jarrLast krakenFiveFrame = some (JVal.jstr "CCC/DDD") ∧
    ("AAA/BBB" : String) ≠ "CCC/DDD" :=
  ⟨by decide, rfl, by decide⟩

/-- C8 amended: every tick produced by `_process_kraken` takes its symbol
from index 3 of the array (`data[3]`); index 3 is the last index exactly
when the frame has length 4, the shape of a standard trade frame. -/
theorem kraken_symbol_from_index3 (xs : List JVal) (sym : String)
    (hdisc : xs.getD 2 JVal.jnull = JVal.jstr "trade")
    (hsym : xs.getD 3 JVal.jnull = JVal.jstr sym) :
    (∀ t ∈ emittedTicks (processKraken (JVal.jarr xs)), t.symbol = sym) ∧
    (xs.length = 4 → jarrLast (JVal.jarr xs) = some (JVal.jstr sym)) := by
  constructor
  · intro t ht
    by_cases hlen : xs.length > 3
    · have hP : processKraken (JVal.jarr xs) =
          (match xs.getD 1 JVal.jnull with
           | JVal.jarr trades => processKrakenTrades sym trades
           | _ => ⟨[], some "TypeError: data[1] is not iterable"⟩) := by
        unfold processKraken
        dsimp only
        rw [if_pos hlen, hdisc, hsym]
        simp
      rw [hP] at ht
      cases h1 : xs.getD 1 JVal.jnull with
      | jarr trades =>
          rw [h1] at ht
          exact processKrakenTrades_symbol sym trades t ht
      | jnull => rw [h1] at ht; simp [emittedTicks] at ht
      | jbool b => rw [h1] at ht; simp [emittedTicks] at ht
      | jint n => rw [h1] at ht; simp [emittedTicks] at ht
      | jnum q => rw [h1] at ht; simp [emittedTicks] at ht
      | jstr s2 => rw [h1] at ht; simp [emittedTicks] at ht
      | jobj f2 => rw [h1] at ht; simp [emittedTicks] at ht
    · rw [processKraken, if_neg hlen] at ht
      simp [emittedTicks] at ht
  · intro hlen4
    match xs, hlen4, hsym with
    | [a, b, c, d], _, hsym2 =>
        have hd : d = JVal.jstr sym := by
          simpa [List.getD] using hsym2
        subst hd
        rfl

/-- Witness for C8 (amended): on the spec's standard length-4 frame, the
tick symbol `XBT/USD` is read from index 3, which is also the last
index. -/
theorem kraken_symbol_from_index3_witness :
    (∀ t ∈ emittedTicks (processKraken (JVal.jarr [JVal.jint 0,
        JVal.jarr [JVal.jarr [JVal.jstr "50000.1", JVal.jstr "0.5",
          JVal.jstr "1700000000.123"]],
        JVal.jstr "trade", JVal.jstr "XBT/USD"])), t.symbol = "XBT/USD") ∧
    ([JVal.jint 0,
        JVal.jarr [JVal.jarr [JVal.jstr "50000.1", JVal.jstr "0.5",
          JVal.jstr "1700000000.123"]],
        JVal.jstr "trade", JVal.jstr "XBT/USD"] : List JVal).length = 4 :=
  ⟨(kraken_symbol_from_index3 [JVal.jint 0,
      JVal.jarr [JVal.jarr [JVal.jstr "50000.1", JVal.jstr "0.5",
        JVal.jstr "1700000000.123"]],
      JVal.jstr "trade", JVal.jstr "XBT/USD"] "XBT/USD" rfl rfl).1, rfl⟩

/-- A sink that always raises. -/
def failingSink : Sink :=
  fun _ _ _ => some "boom"

/-- A sink that always succeeds. -/
def okSink : Sink :=
  fun _ _ _ => none

/-- A relevant, well-formed Binance miniTicker envelope for the feeds
handler. -/
def miniTickerEnv : List (String × JVal) :=
  [("stream", JVal.jstr "btcusdt@miniTicker"),
   ("data", JVal.jobj [("s", JVal.jstr "BTCUSDT"), ("c", JVal.jstr "50000.1"),
     ("o", JVal.jstr "49000.0")])]

/-- Counterexample to C4 as stated: with sinks `[failingSink, okSink]`,
the tick is delivered to sink 0 only — the raising sink prevents
delivery to the subsequent sink 1 — and the exception propagates out of
the receive-loop body, where the handler's catch-all restarts the
connection through backoff; only the price-map write (performed before
fan-out) survives. -/
theorem sink_failure_stops_fanout :
    feedBinanceStep ⟨[]⟩ [failingSink, okSink] miniTickerEnv =
      (⟨[("BTCUSDT", ⟨500001, 10⟩)]⟩, [0], some "boom") ∧
    (1 : Nat) ∉ ([0] : List Nat) ∧
    supStep ConnState.connected SupEvent.recvErr = ConnState.backoff :=
  ⟨by decide, by decide, rfl⟩

/-- The fan-out loop on sinks `pre ++ cb :: post`, where every sink of
`pre` succeeds and `cb` raises: exactly the sinks up to and including
`cb` are invoked and the exception propagates. -/
theorem fanOutAux_fail (sym : String) (pr : Dec) (exch err : String)
    (pre post : List Sink) (cb : Sink)
    (hpre : ∀ c ∈ pre, c sym pr exch = none)
    (hcb : cb sym pr exch = some err) :
    ∀ i, fanOutAux sym pr exch i (pre ++ cb :: post) =
      (List.range' i (pre.length + 1), some err) := by
  induction pre with
  | nil =>
      intro i
      simp [fanOutAux, hcb, List.range']
  | cons c rest ih =>
      intro i
      have hc : c sym pr exch = none := hpre c (List.mem_cons_self c rest)
      have ih2 := ih (fun c2 hc2 => hpre c2 (List.mem_cons_of_mem c hc2)) (i + 1)
      simp [fanOutAux, hc, ih2, List.range']

/-- C4 amended: on a relevant well-formed message, the price-map write
precedes fan-out and therefore happens regardless of sink outcomes; but
a raising sink is NOT isolated: the sinks registered after the first
failing one are not invoked, the exception propagates to the handler's
catch-all, and the supervisor restarts the receive-loop through backoff. -/
theorem sink_failure_not_isolated (st : FeedState) (pre post : List Sink)
    (cb : Sink) (env : List (String × JVal)) (sn sym err : String)
    (tickf : List (String × JVal)) (cv : JVal) (pr : Dec)
    (hstream : env.lookup "stream" = some (JVal.jstr sn))
    (hend : pyEndsWith sn "@miniTicker" = true)
    (hdata : env.lookup "data" = some (JVal.jobj tickf))
    (hsym : tickf.lookup "s" = some (JVal.jstr sym))
    (hc : tickf.lookup "c" = some cv)
    (hpr : pyFloat cv = Except.ok pr)
    (hpre : ∀ c ∈ pre, c sym pr "binance" = none)
    (hcb : cb sym pr "binance" = some err) :
    feedBinanceStep st (pre ++ cb :: post) env =
      (⟨dictSet st.price sym pr⟩, List.range (pre.length + 1), some err) ∧
    (∀ j, pre.length < j → j ∉ List.range (pre.length + 1)) ∧
    supStep ConnState.connected SupEvent.recvErr = ConnState.backoff ∧
    (∀ e, e ≠ SupEvent.stop → supStep ConnState.backoff e = ConnState.connecting) := by
  refine ⟨?_, ?_, rfl, ?_⟩
  · have hfan : fanOut (pre ++ cb :: post) sym pr "binance" =
        (List.range' 0 (pre.length + 1), some err) :=
      fanOutAux_fail sym pr "binance" err pre post cb hpre hcb 0
    rw [List.range_eq_range']
    simp [feedBinanceStep, hstream, hend, hdata, hsym, hc, hpr, hfan]
  · intro j hj hmem
    rw [List.mem_range] at hmem
    omega
  · intro e he
    cases e <;> simp_all [supStep]

/-- Witness for C4 (amended): one succeeding sink, then a failing one,
then another sink — the step writes the price, invokes sinks 0 and 1
only, and raises. -/
theorem sink_failure_not_isolated_witness :
    feedBinanceStep ⟨[]⟩ [okSink, failingSink, okSink] miniTickerEnv =
      (⟨[("BTCUSDT", ⟨500001, 10⟩)]⟩, List.range 2, some "boom") :=
  (sink_failure_not_isolated ⟨[]⟩ [okSink] [okSink] failingSink miniTickerEnv
    "btcusdt@miniTicker" "BTCUSDT" "boom"
    [("s", JVal.jstr "BTCUSDT"), ("c", JVal.jstr "50000.1"),
     ("o", JVal.jstr "49000.0")]
    (JVal.jstr "50000.1") ⟨500001, 10⟩
    rfl (by decide) rfl rfl rfl rfl
    (by
      intro c hcm
      rcases List.mem_cons.mp hcm with hh | hm
      · rw [hh]; rfl
      · cases hm)
    rfl).1

/-- Witness for C6: subscribing twice to `btcusdt` on binance from the
initial state yields the set `["BTCUSDT"]`, containing it once. -/
theorem subscribe_twice_exactly_once_witness :
    (subsOf (subscribe (subscribe initialWSState "binance" "btcusdt")
      "binance" "btcusdt") "binance").count "btcusdt".toUpper = 1 :=
  (subscribe_twice_exactly_once initialWSState "binance" "btcusdt"
    (by decide)
    (by
      intro a l hm
      simp [initialWSState] at hm
      rcases hm with ⟨rfl, rfl⟩ | ⟨rfl, rfl⟩ | ⟨rfl, rfl⟩ <;> simp)).1

/-- Witness for C7: a concrete run — connect, receive error, backoff,
reconnect — never reaches `disconnected`. -/
theorem supervisor_backoff_retry_witness :
    supStep ConnState.backoff SupEvent.connectOk = ConnState.connecting ∧
    supRun ConnState.connecting
      [SupEvent.connectOk, SupEvent.recvOk, SupEvent.recvErr,
       SupEvent.connectOk, SupEvent.recvOk] ≠ ConnState.disconnected :=
  ⟨(supervisor_backoff_and_unbounded_retry 5).2.2.2.2.2.1 SupEvent.connectOk (by decide),
   (supervisor_backoff_and_unbounded_retry 5).2.2.2.2.2.2 ConnState.connecting _
     (by decide) (by decide)⟩
